import Mathlib

/-!
Verification of the SM CNN answer-selection scorer (`QAModel` in
`sm_cnn/tutorial.ipynb`).

Shallow embedding conventions:
* scalars are real numbers (`ℝ`);
* a 1-D signal (one channel of a sequence, one feature vector, one row of a
  2-D tensor) is a `List ℝ`;
* a 2-D array is a list of rows; a token matrix for a single batch element is
  a `Mat` whose rows are the `input_n_dim` embedding channels and whose
  columns are the `seq_len` token positions (the PyTorch layout
  `(embedding_dim, seq_len)` for one batch element);
* a batched 3-D tensor `(batch, embedding_dim, seq_len)` is a `List Mat`;
* the module-level training flag (`self.training`) and the dropout noise
  source, which are implicit mutable/random state in PyTorch, are passed as
  explicit arguments (`training : Bool`, a Boolean mask);
* `nn.Conv1d`, `F.max_pool1d`, `nn.Linear`, `nn.Tanh`, `nn.Dropout` and
  `nn.LogSoftmax` are given their mathematical real-number semantics.
-/

namespace SMCNN

/-- A 1-D signal: a list of real scalars. -/
abbrev Vec := List ℝ

/-- A 2-D array: a list of rows. -/
abbrev Mat := List Vec

/-- The sequence length (size of the last axis) of a rectangular
`(channels × positions)` matrix: the length of its first row. -/
def seqLen (x : Mat) : Nat := (x.headD []).length

/-- Dot product of two equal-length vectors (`zipWith` truncates, which never
happens on well-formed shapes). -/
def dot (a b : Vec) : ℝ := (List.zipWith (· * ·) a b).sum

/-- Zero padding of a 1-D signal: `p` zeros on each side, as produced by the
`padding=filter_width-1` argument of `nn.Conv1d` in `QAModel.__init__`. -/
def padSeq (p : Nat) (xs : Vec) : Vec :=
  List.replicate p 0 ++ xs ++ List.replicate p 0

/-- The width-`w` window of a signal starting at position `t`. -/
def window (w t : Nat) (xs : Vec) : Vec := (xs.drop t).take w

/-- Cross-correlation response at output position `t`: the multi-channel dot
product of the kernel bank `kers` (in-channels × width) with the aligned
windows of the (already padded) input channels `sigs`. -/
def convAt (w : Nat) (kers : Mat) (sigs : Mat) (t : Nat) : ℝ :=
  (List.zipWith (fun ker sig => dot ker (window w t sig)) kers sigs).sum

/-- Output length of a 1-D convolution with kernel width `w`, padding `p` on
each side, over an input of length `L`: `(L + 2p) - w + 1` (ℕ-truncated). -/
def convOutLen (w p L : Nat) : Nat := L + 2 * p + 1 - w

/-- One output channel of `nn.Conv1d`: bias plus cross-correlation with one
kernel bank, at every valid position of the padded input. -/
def convChannel (w p : Nat) (kers : Mat) (b : ℝ) (inp : Mat) : Vec :=
  (List.range (convOutLen w p (seqLen inp))).map
    (fun t => b + convAt w kers (inp.map (padSeq p)) t)

/-- Learned parameters of one `nn.Conv1d`:
`weight : out_channels × in_channels × filter_width`, `bias : out_channels`. -/
structure Conv1dParams where
  weight : List Mat
  bias : Vec

/-- The layer `nn.Conv1d` with kernel width `w` and symmetric padding `p`, applied to a
single batch element: one output row per (kernel bank, bias) pair. -/
def conv1d (w p : Nat) (cp : Conv1dParams) (inp : Mat) : Mat :=
  List.zipWith (fun kers b => convChannel w p kers b inp) cp.weight cp.bias

/-- The activation `nn.Tanh` applied elementwise to a 2-D array. -/
noncomputable def tanhMat (x : Mat) : Mat := x.map (fun r => r.map Real.tanh)

/-- The `nn.Sequential(nn.Conv1d(input_n_dim, conv_channels, filter_width,
padding=filter_width-1), nn.Tanh())` container built in `QAModel.__init__`
(`conv_q` / `conv_a`), on a single batch element. -/
noncomputable def convBranch (w : Nat) (cp : Conv1dParams) (inp : Mat) : Mat :=
  tanhMat (conv1d w (w - 1) cp inp)

/-- Full-window max pooling of one channel: `F.max_pool1d(x, x.size()[2])`
takes the maximum over the whole sequence axis.  (The `[]` case is the torch
runtime error caught by the checked scorer; the value is irrelevant.) -/
def poolMax : Vec → ℝ
  | [] => 0
  | x :: xs => xs.foldl max x

/-- One convolution branch of `QAModel.forward` on a single batch element:
`conv` layers, then `F.max_pool1d` over the full feature-map length, then
`view(-1, conv_channels)` (which on the well-formed `(batch, C, 1)` result
just drops the trailing singleton axis, leaving one scalar per channel). -/
noncomputable def branchVec (w : Nat) (cp : Conv1dParams) (inp : Mat) : Vec :=
  (convBranch w cp inp).map poolMax

/-- The convolution branch applied to a whole batch, i.e. the composite
`conv → max-pool → view` of `QAModel.forward` on a `(batch, dim, L)` input. -/
noncomputable def branchBatch (w : Nat) (cp : Conv1dParams) (xs : List Mat) :
    List Vec :=
  xs.map (branchVec w cp)

/-- Learned parameters of one `nn.Linear`:
`weight : out_features × in_features`, `bias : out_features`. -/
structure LinearParams where
  weight : Mat
  bias : Vec

/-- The layer `nn.Linear` on a single row: `y i = ⟨weight i, x⟩ + bias i`. -/
noncomputable def linear (lp : LinearParams) (x : Vec) : Vec :=
  List.zipWith (fun wrow b => dot wrow x + b) lp.weight lp.bias

/-- The layer `nn.Dropout(p)` on a single row, with the training flag and the random
zeroing mask made explicit: in training mode every element whose mask bit is
set is zeroed and the survivors are rescaled by `1/(1-p)`; in inference
(eval) mode the input passes through unchanged. -/
noncomputable def dropout (training : Bool) (p : ℝ) (mask : Nat → Bool)
    (x : Vec) : Vec :=
  if training then
    x.enum.map (fun iv => if mask iv.1 then 0 else iv.2 / (1 - p))
  else x

/-- The layer `nn.LogSoftmax` on a single row (for a 2-D input it normalizes each row):
`log_prob i = logit i - log (Σ j, exp (logit j))`. -/
noncomputable def logsoftmax (x : Vec) : Vec :=
  x.map (fun v => v - Real.log ((x.map Real.exp).sum))

/-- The `QAModel` instance: the structural hyperparameters stored by
`__init__` together with the learned parameters of its four layers. -/
structure QAModel where
  input_n_dim : Nat
  filter_width : Nat
  conv_channels : Nat
  no_ext_feats : Bool
  ext_feats_size : Nat
  n_classes : Nat
  conv_q : Conv1dParams
  conv_a : Conv1dParams
  combined_feature_vector : LinearParams
  hidden : LinearParams

/-- The hidden width computed in `QAModel.__init__`:
`n_hidden = 2*self.conv_channels + (0 if no_ext_feats else ext_feats_size)`. -/
def QAModel.n_hidden (m : QAModel) : Nat :=
  2 * m.conv_channels + (if m.no_ext_feats then 0 else m.ext_feats_size)

/-- The method `QAModel.forward` on a single batch element, line for line:
branch `conv_q` (conv, pool, view), branch `conv_a`, concatenation with
`ext_feats` unless `no_ext_feats`, `combined_feature_vector`,
`combined_features_activation` (tanh), `dropout`, `hidden`, `logsoftmax`. -/
noncomputable def QAModel.forwardItem (m : QAModel) (training : Bool)
    (mask : Nat → Bool) (question answer : Mat) (ext_feats : Vec) : Vec :=
  let q := branchVec m.filter_width m.conv_q question
  let a := branchVec m.filter_width m.conv_a answer
  let x := if m.no_ext_feats then q ++ a else q ++ a ++ ext_feats
  let x := linear m.combined_feature_vector x
  let x := x.map Real.tanh
  let x := dropout training (1 / 2) mask x
  let x := linear m.hidden x
  logsoftmax x

/-- Batched `QAModel.forward`: row `i` of the output is `forwardItem` on the
`i`-th (question, answer, ext_feats) triple, with the dropout mask drawn
independently per row (`mask i`). -/
noncomputable def QAModel.scoreAux (m : QAModel) (training : Bool)
    (mask : Nat → Nat → Bool) :
    Nat → List Mat → List Mat → List Vec → List Vec
  | i, q :: qs, a :: as, e :: es =>
      m.forwardItem training (mask i) q a e ::
        m.scoreAux training mask (i + 1) qs as es
  | _, _, _, _ => []

/-- The public entry point `score`: `QAModel.forward` on a batch. -/
noncomputable def QAModel.score (m : QAModel) (training : Bool)
    (mask : Nat → Nat → Bool) (questions answers : List Mat)
    (ext_feats : List Vec) : List Vec :=
  m.scoreAux training mask 0 questions answers ext_feats

/-- The declared layer shapes produced by `QAModel.__init__`: for each layer
constructor call, the constructor arguments that fix its tensor shapes. -/
structure InitShapes where
  conv_q_in_channels : Nat
  conv_q_out_channels : Nat
  conv_q_kernel : Nat
  conv_q_padding : Nat
  conv_a_in_channels : Nat
  conv_a_out_channels : Nat
  conv_a_kernel : Nat
  conv_a_padding : Nat
  cfv_in : Nat
  cfv_out : Nat
  hidden_in : Nat
  hidden_out : Nat

/-- The constructor `QAModel.__init__` at the shape level, argument for argument: the shape
arguments it passes to `nn.Conv1d` (twice), to
`nn.Linear(2*conv_channels + (0 if no_ext_feats else ext_feats_size),
n_hidden)` for `combined_feature_vector`, and to
`nn.Linear(n_hidden, n_classes)` for `hidden`.  `__init__` has no
hidden-width parameter: every shape is computed from the six arguments
below, exactly as in the source. -/
def initShapes (input_n_dim filter_width conv_filters : Nat)
    (no_ext_feats : Bool) (ext_feats_size n_classes : Nat) : InitShapes :=
  let conv_channels := conv_filters
  let n_hidden := 2 * conv_channels +
    (if no_ext_feats then 0 else ext_feats_size)
  { conv_q_in_channels := input_n_dim
    conv_q_out_channels := conv_channels
    conv_q_kernel := filter_width
    conv_q_padding := filter_width - 1
    conv_a_in_channels := input_n_dim
    conv_a_out_channels := conv_channels
    conv_a_kernel := filter_width
    conv_a_padding := filter_width - 1
    cfv_in := 2 * conv_channels + (if no_ext_feats then 0 else ext_feats_size)
    cfv_out := n_hidden
    hidden_in := n_hidden
    hidden_out := n_classes }

/-- The runtime shape errors the PyTorch substrate can raise during
`QAModel.forward`.  The source defines no exception classes of its own
(no `ConfigurationError`, no `InvalidInputError`): every failure is a torch
`RuntimeError` raised by the first tensor operation whose operand shapes do
not fit.  The constructors name, in execution order, where such an error can
arise. -/
inductive ScoreError where
  /-- the layer `nn.Conv1d` rejects an input whose channel count differs from its
  declared `in_channels`. -/
  | convChannelsMismatch : ScoreError
  /-- the layer `nn.Conv1d` rejects an input whose padded length is smaller than the
  kernel width. -/
  | convKernelTooLarge : ScoreError
  /-- the concatenation `torch.cat(..., 1)` rejects operands whose batch (dim 0) sizes differ. -/
  | catBatchMismatch : ScoreError
  /-- the matrix multiply inside `combined_feature_vector` rejects a
  concatenated row whose width differs from the layer's `in_features`. -/
  | projectionShapeMismatch : ScoreError
deriving DecidableEq

/-- Whether `nn.Conv1d` with kernel width `w` and padding `w - 1` can run on
an input of sequence length `L`: the padded length `L + 2*(w-1)` must be at
least the kernel width. -/
def convFeasible (w L : Nat) : Bool := decide (w ≤ L + 2 * (w - 1))

/-- The shape precondition `nn.Conv1d(in_channels, ·, w, padding=w-1)`
enforces on one batch element before computing anything. -/
def convCheck (in_channels w : Nat) (inp : Mat) : Option ScoreError :=
  if inp.length ≠ in_channels then some .convChannelsMismatch
  else if convFeasible w (seqLen inp) then none
  else some .convKernelTooLarge

/-- Number of rows a convolution branch produces per batch element (the
out-channel count actually present in the parameters). -/
def branchOutLen (cp : Conv1dParams) : Nat :=
  min cp.weight.length cp.bias.length

/-- The `in_features` of an `nn.Linear`, read off its weight shape. -/
def inFeatures (lp : LinearParams) : Nat := (lp.weight.headD []).length

/-- The shape preconditions of one pass of `QAModel.forward`, in the order
the torch runtime would raise them: the `conv_q` checks, then the `conv_a`
checks, then the `torch.cat` batch-size check, then the width check of the
matrix multiply inside `combined_feature_vector`.  `none` means every tensor
operation is shape-correct and `forward` runs to completion.  Note that when
`no_ext_feats` is set, `ext_feats` is never inspected. -/
def QAModel.checkShapes (m : QAModel) (questions answers : List Mat)
    (ext_feats : List Vec) : Option ScoreError :=
  match (questions.map (convCheck m.input_n_dim m.filter_width)).findSome? id with
  | some e => some e
  | none =>
  match (answers.map (convCheck m.input_n_dim m.filter_width)).findSome? id with
  | some e => some e
  | none =>
    if m.no_ext_feats then
      if questions.length ≠ answers.length then some .catBatchMismatch
      else if branchOutLen m.conv_q + branchOutLen m.conv_a
          ≠ inFeatures m.combined_feature_vector then
        some .projectionShapeMismatch
      else none
    else
      if questions.length ≠ answers.length ∨
          answers.length ≠ ext_feats.length then some .catBatchMismatch
      else if ext_feats.any (fun e =>
          branchOutLen m.conv_q + branchOutLen m.conv_a + e.length
            ≠ inFeatures m.combined_feature_vector) then
        some .projectionShapeMismatch
      else none

/-- The method `QAModel.forward` on a batch together with its failure behaviour: the
result is the first shape error the torch runtime raises, or the computed
log-probability rows when every operation is shape-correct. -/
noncomputable def QAModel.scoreE (m : QAModel) (training : Bool)
    (mask : Nat → Nat → Bool) (questions answers : List Mat)
    (ext_feats : List Vec) : Except ScoreError (List Vec) :=
  match m.checkShapes questions answers ext_feats with
  | some e => .error e
  | none => .ok (m.score training mask questions answers ext_feats)

/-- Whether a checked computation succeeded. -/
def exceptOk {ε α : Type} : Except ε α → Bool
  | .ok _ => true
  | .error _ => false

/-- The forward pass as the specification words it, step by step: each branch
is convolved and max-pooled into a summary vector; the two summaries, plus
the auxiliary feature vector when enabled, are concatenated along the
feature axis; the concatenation is affinely projected, elementwise
nonlinearly activated, passed through the dropout step, affinely projected
to the class logits, and normalized by log-softmax.  (Second definition for
the refinement claim C1; `QAModel.forwardItem` is the one read off the
source.) -/
noncomputable def specPipeline (m : QAModel) (training : Bool)
    (mask : Nat → Bool) (question answer : Mat) (ext_feats : Vec) : Vec :=
  let summaries := branchVec m.filter_width m.conv_q question ++
    branchVec m.filter_width m.conv_a answer
  let concatenated := summaries ++ (if m.no_ext_feats then [] else ext_feats)
  logsoftmax
    (linear m.hidden
      (dropout training (1 / 2) mask
        ((linear m.combined_feature_vector concatenated).map Real.tanh)))

/-! Helper lemmas (shared; none of these is a claim's theorem). -/

/-- In eval mode dropout is definitionally the identity. -/
lemma dropout_eval (p : ℝ) (mask : Nat → Bool) (x : Vec) :
    dropout false p mask x = x := rfl

/-- In eval mode `forwardItem` does not depend on the dropout mask. -/
lemma forwardItem_eval_mask (m : QAModel) (mk mk' : Nat → Bool)
    (q a : Mat) (e : Vec) :
    m.forwardItem false mk q a e = m.forwardItem false mk' q a e := by
  simp only [QAModel.forwardItem, dropout_eval]

/-- When `no_ext_feats` is set, `forwardItem` does not depend on the
`ext_feats` argument (the concatenation takes the `[q, a]` branch). -/
lemma forwardItem_ext_any (m : QAModel) (training : Bool) (mk : Nat → Bool)
    (q a : Mat) (e e' : Vec) (hne : m.no_ext_feats = true) :
    m.forwardItem training mk q a e = m.forwardItem training mk q a e' := by
  simp only [QAModel.forwardItem, hne, if_true]

/-- In eval mode `scoreAux` does not depend on the dropout masks. -/
lemma scoreAux_eval_mask (m : QAModel) (mask mask' : Nat → Nat → Bool) :
    ∀ (i : Nat) (qs as : List Mat) (es : List Vec),
      m.scoreAux false mask i qs as es = m.scoreAux false mask' i qs as es := by
  intro i qs
  induction qs generalizing i with
  | nil => intro as es; rfl
  | cons q qs ih =>
    intro as es
    cases as with
    | nil => rfl
    | cons a as =>
      cases es with
      | nil => rfl
      | cons e es =>
        simp only [QAModel.scoreAux]
        rw [forwardItem_eval_mask m (mask i) (mask' i), ih]

/-- When `no_ext_feats` is set, `scoreAux` is unchanged by replacing the
auxiliary-feature rows with any other rows of the same batch size. -/
lemma scoreAux_ext_any (m : QAModel) (training : Bool)
    (mask : Nat → Nat → Bool) (hne : m.no_ext_feats = true) :
    ∀ (i : Nat) (qs as : List Mat) (es es' : List Vec),
      es.length = es'.length →
      m.scoreAux training mask i qs as es =
        m.scoreAux training mask i qs as es' := by
  intro i qs
  induction qs generalizing i with
  | nil => intro as es es' _; rfl
  | cons q qs ih =>
    intro as es es' hlen
    cases as with
    | nil => rfl
    | cons a as =>
      cases es with
      | nil =>
        cases es' with
        | nil => rfl
        | cons e' es' => simp at hlen
      | cons e es =>
        cases es' with
        | nil => simp at hlen
        | cons e' es' =>
          simp only [QAModel.scoreAux]
          rw [forwardItem_ext_any m training (mask i) q a e e' hne,
            ih (i + 1) as es es' (by simpa using hlen)]

/-- Dividing every mapped term of a list sum by a common constant. -/
lemma sum_map_div (l : List ℝ) (f : ℝ → ℝ) (c : ℝ) :
    (l.map (fun v => f v / c)).sum = (l.map f).sum / c := by
  induction l with
  | nil => simp
  | cons x xs ih => simp [ih, add_div]

/-- The sum of the exponentials of a nonempty list is positive. -/
lemma exp_sum_pos (l : Vec) (h : l ≠ []) : 0 < (l.map Real.exp).sum := by
  cases l with
  | nil => exact absurd rfl h
  | cons x xs =>
    have hge : 0 ≤ (xs.map Real.exp).sum := by
      apply List.sum_nonneg
      intro y hy
      obtain ⟨z, _, rfl⟩ := List.mem_map.1 hy
      exact le_of_lt (Real.exp_pos z)
    simp only [List.map_cons, List.sum_cons]
    linarith [Real.exp_pos x]

/-- Log-softmax of a nonempty row exponentiates back to a probability
vector: the exponentials sum to exactly `1`. -/
lemma logsoftmax_exp_sum (x : Vec) (h : x ≠ []) :
    ((logsoftmax x).map Real.exp).sum = 1 := by
  have hS : 0 < (x.map Real.exp).sum := exp_sum_pos x h
  unfold logsoftmax
  rw [List.map_map]
  have hfun : (Real.exp ∘ fun v => v - Real.log ((x.map Real.exp).sum)) =
      fun v => Real.exp v / (x.map Real.exp).sum := by
    funext v
    rw [Function.comp_apply, Real.exp_sub, Real.exp_log hS]
  rw [hfun, sum_map_div x Real.exp ((x.map Real.exp).sum)]
  exact div_self (ne_of_gt hS)

/-- The image of one `forwardItem` call is a log-softmax row over a nonempty
logit vector (nonempty whenever the classifier layer has a row). -/
lemma forwardItem_exp_sum (m : QAModel) (training : Bool) (mk : Nat → Bool)
    (q a : Mat) (e : Vec)
    (hcls : 1 ≤ min m.hidden.weight.length m.hidden.bias.length) :
    ((m.forwardItem training mk q a e).map Real.exp).sum = 1 := by
  unfold QAModel.forwardItem
  apply logsoftmax_exp_sum
  intro hnil
  have hlen := congrArg List.length hnil
  rw [linear, List.length_zipWith, List.length_nil] at hlen
  rw [hlen] at hcls
  exact Nat.not_succ_le_zero 0 hcls

/-- Every row of `scoreAux` is a `forwardItem` result. -/
lemma mem_scoreAux (m : QAModel) (training : Bool) (mask : Nat → Nat → Bool) :
    ∀ (i : Nat) (qs as : List Mat) (es : List Vec) (row : Vec),
      row ∈ m.scoreAux training mask i qs as es →
      ∃ (j : Nat) (q a : Mat) (e : Vec),
        row = m.forwardItem training (mask j) q a e := by
  intro i qs
  induction qs generalizing i with
  | nil => intro as es row hrow; simp [QAModel.scoreAux] at hrow
  | cons q qs ih =>
    intro as es row hrow
    cases as with
    | nil => simp [QAModel.scoreAux] at hrow
    | cons a as =>
      cases es with
      | nil => simp [QAModel.scoreAux] at hrow
      | cons e es =>
        simp only [QAModel.scoreAux, List.mem_cons] at hrow
        cases hrow with
        | inl hr => exact ⟨i, q, a, e, hr⟩
        | inr hr => exact ih (i + 1) as es row hr

/-- Length of one convolution output channel. -/
lemma convChannel_length (w p : Nat) (kers : Mat) (b : ℝ) (inp : Mat) :
    (convChannel w p kers b inp).length = convOutLen w p (seqLen inp) := by
  simp [convChannel]

/-- Every element of a `zipWith` image satisfies any property of the
combining function's values. -/
lemma forall_mem_zipWith {α β γ : Type} (f : α → β → γ) (P : γ → Prop)
    (h : ∀ a b, P (f a b)) :
    ∀ (l₁ : List α) (l₂ : List β), ∀ c ∈ List.zipWith f l₁ l₂, P c := by
  intro l₁
  induction l₁ with
  | nil => intro l₂ c hc; simp at hc
  | cons x xs ih =>
    intro l₂ c hc
    cases l₂ with
    | nil => simp at hc
    | cons y ys =>
      simp only [List.zipWith_cons_cons, List.mem_cons] at hc
      cases hc with
      | inl hc => exact hc ▸ h x y
      | inr hc => exact ih ys c hc

/-- The left fold of `max` over a list is one of the seed or the
elements. -/
lemma foldl_max_mem (xs : Vec) : ∀ (x : ℝ), xs.foldl max x ∈ x :: xs := by
  induction xs with
  | nil => intro x; simp
  | cons y ys ih =>
    intro x
    simp only [List.foldl_cons]
    rcases max_choice x y with hm | hm <;> rw [hm]
    · have h := ih x
      simp only [List.mem_cons] at h ⊢
      tauto
    · have h := ih y
      simp only [List.mem_cons] at h ⊢
      tauto

/-- Full-window max pooling returns an element of a nonempty channel. -/
lemma poolMax_mem (x : ℝ) (xs : Vec) : poolMax (x :: xs) ∈ x :: xs :=
  foldl_max_mem xs x

/-- Real tanh is strictly below `1`. -/
lemma real_tanh_lt_one (x : ℝ) : Real.tanh x < 1 := by
  rw [Real.tanh_eq_sinh_div_cosh]
  exact (div_lt_one (Real.cosh_pos x)).2 (Real.sinh_lt_cosh x)

/-- Real tanh is strictly above `-1`. -/
lemma neg_one_lt_real_tanh (x : ℝ) : -1 < Real.tanh x := by
  rw [Real.tanh_eq_sinh_div_cosh]
  rw [lt_div_iff₀ (Real.cosh_pos x)]
  have h := Real.sinh_lt_cosh (-x)
  rw [Real.sinh_neg, Real.cosh_neg] at h
  linarith

/-! Theorems for the claims. -/

/-- C1: `QAModel.forward` computes its output by exactly the specified
sequence of steps in the specified order: each token matrix is independently
convolved and max-pooled into a per-branch summary vector, the two summaries
(plus the auxiliary feature vector when enabled) are concatenated along the
feature axis, the concatenation is affinely projected, elementwise
nonlinearly activated, passed through the dropout step, affinely projected
again to class-count logits, and normalized by log-softmax
(`specPipeline`). -/
theorem forward_follows_spec_pipeline (m : QAModel) (training : Bool)
    (mask : Nat → Bool) (question answer : Mat) (ext_feats : Vec) :
    m.forwardItem training mask question answer ext_feats =
      specPipeline m training mask question answer ext_feats := by
  simp only [QAModel.forwardItem, specPipeline]
  cases hm : m.no_ext_feats with
  | true => simp [hm]
  | false => simp [hm, List.append_assoc]

/-- C5: the projection layer's declared output width (`n_hidden`, the hidden
width fed to the activation, dropout and classifier) is computed by the
exact formula `2*conv_filters + (0 if no_ext_feats else ext_feats_size)`,
equals its own declared input width, and equals the classifier layer's
declared input width; `__init__` exposes no independent hidden-width
hyperparameter (its whole shape configuration is `initShapes`). -/
theorem projection_width_formula (input_n_dim filter_width conv_filters : Nat)
    (no_ext_feats : Bool) (ext_feats_size n_classes : Nat) :
    (initShapes input_n_dim filter_width conv_filters no_ext_feats
        ext_feats_size n_classes).cfv_out =
      2 * conv_filters + (if no_ext_feats then 0 else ext_feats_size) ∧
    (initShapes input_n_dim filter_width conv_filters no_ext_feats
        ext_feats_size n_classes).cfv_out =
      (initShapes input_n_dim filter_width conv_filters no_ext_feats
        ext_feats_size n_classes).cfv_in ∧
    (initShapes input_n_dim filter_width conv_filters no_ext_feats
        ext_feats_size n_classes).hidden_in =
      (initShapes input_n_dim filter_width conv_filters no_ext_feats
        ext_feats_size n_classes).cfv_out :=
  ⟨rfl, rfl, rfl⟩

/-- C6: in inference mode the dropout step is the identity — no element
zeroed, no rescaling — and the output of `score` does not depend on the
dropout randomness at all, so two calls with identical inputs and identical
parameters yield identical output. -/
theorem eval_mode_deterministic (m : QAModel) (p : ℝ) (mk : Nat → Bool)
    (x : Vec) (mask mask' : Nat → Nat → Bool) (qs as : List Mat)
    (es : List Vec) :
    dropout false p mk x = x ∧
    m.score false mask qs as es = m.score false mask' qs as es :=
  ⟨dropout_eval p mk x, scoreAux_eval_mask m mask mask' 0 qs as es⟩

/-- C2: every row of the array returned by `score` sums to exactly `1` after
elementwise exponentiation, because the final transform is the log-softmax
`log_prob i = logit i - log (Σ j, exp (logit j))` applied to the classifier
logits (the identity is exact over the reals; the spec's floating-point
tolerance is its numerical shadow). -/
theorem score_rows_exp_sum_one (m : QAModel) (training : Bool)
    (mask : Nat → Nat → Bool) (qs as : List Mat) (es : List Vec)
    (hcls : 1 ≤ min m.hidden.weight.length m.hidden.bias.length) :
    ∀ row ∈ m.score training mask qs as es, (row.map Real.exp).sum = 1 := by
  intro row hrow
  simp only [QAModel.score] at hrow
  obtain ⟨j, q, a, e, rfl⟩ := mem_scoreAux m training mask 0 qs as es row hrow
  exact forwardItem_exp_sum m training (mask j) q a e hcls

/-- C3: each convolution branch pads the sequence axis symmetrically by
`W - 1` positions on each side, and the raw convolution output along the
sequence axis has length `L + W - 1` for every input of sequence length
`L ≥ 1` (e.g. length 9 for `L = 5`, `W = 5`). -/
theorem conv_raw_output_length (w : Nat) (cp : Conv1dParams) (inp : Mat)
    (hw : 1 ≤ w) (hL : 1 ≤ seqLen inp) :
    (∀ r ∈ inp, (padSeq (w - 1) r).length = r.length + 2 * (w - 1)) ∧
    (conv1d w (w - 1) cp inp).length = min cp.weight.length cp.bias.length ∧
    ∀ row ∈ conv1d w (w - 1) cp inp, row.length = seqLen inp + w - 1 := by
  refine ⟨?_, ?_, ?_⟩
  · intro r _
    simp only [padSeq, List.length_append, List.length_replicate]
    omega
  · simp [conv1d]
  · simp only [conv1d]
    apply forall_mem_zipWith
      (P := fun row : Vec => row.length = seqLen inp + w - 1)
    intro kers b
    rw [convChannel_length]
    unfold convOutLen
    omega

/-- C4: for every channel count `C`, filter width `w`, batch, and sequence
lengths, the convolution branch followed by full-window max pooling and
reshape produces an output of shape `(batch, C)`, independent of the
sequence length (no hypothesis on the lengths of the elements of `xs` is
needed at all). -/
theorem branch_output_shape (w C : Nat) (cp : Conv1dParams) (xs : List Mat)
    (hwt : cp.weight.length = C) (hbs : cp.bias.length = C) :
    (branchBatch w cp xs).length = xs.length ∧
    ∀ v ∈ branchBatch w cp xs, v.length = C := by
  constructor
  · simp [branchBatch]
  · intro v hv
    simp only [branchBatch, List.mem_map] at hv
    obtain ⟨x, -, rfl⟩ := hv
    simp [branchVec, convBranch, tanhMat, conv1d, hwt, hbs]

/-- C10: every element of a branch summary vector (the per-channel
max-pooled branch output entering the concatenation) lies strictly inside
the open interval `(-1, 1)` for every input with sequence length at least 1,
because the pooled values are maxima over tanh outputs. -/
theorem branch_summary_strictly_bounded (w : Nat) (cp : Conv1dParams)
    (inp : Mat) (hw : 1 ≤ w) (hL : 1 ≤ seqLen inp) :
    ∀ y ∈ branchVec w cp inp, -1 < y ∧ y < 1 := by
  intro y hy
  simp only [branchVec, List.mem_map] at hy
  obtain ⟨row, hrow, rfl⟩ := hy
  simp only [convBranch, tanhMat, List.mem_map] at hrow
  obtain ⟨r, hr, rfl⟩ := hrow
  have hrlen : r.length = seqLen inp + w - 1 := by
    revert r
    simp only [conv1d]
    apply forall_mem_zipWith
      (P := fun r : Vec => r.length = seqLen inp + w - 1)
    intro kers b
    rw [convChannel_length]
    unfold convOutLen
    omega
  cases r with
  | nil =>
    simp only [List.length_nil] at hrlen
    omega
  | cons z zs =>
    simp only [List.map_cons]
    rcases List.mem_cons.1 (poolMax_mem (Real.tanh z) (zs.map Real.tanh))
      with h | h
    · rw [h]
      exact ⟨neg_one_lt_real_tanh z, real_tanh_lt_one z⟩
    · obtain ⟨u, -, hu⟩ := List.mem_map.1 h
      rw [← hu]
      exact ⟨neg_one_lt_real_tanh u, real_tanh_lt_one u⟩

/-- C9: when the model is constructed with `no_ext_feats = True`, `forward`
still takes the `ext_feats` argument (it is a mandatory parameter of
`forwardItem`), but the returned output is independent of its value. -/
theorem forward_ignores_ext_when_disabled (m : QAModel) (training : Bool)
    (mask : Nat → Bool) (question answer : Mat) (e e' : Vec)
    (hne : m.no_ext_feats = true) :
    m.forwardItem training mask question answer e =
      m.forwardItem training mask question answer e' :=
  forwardItem_ext_any m training mask question answer e e' hne

/-- C7 (amended): the code performs no auxiliary-feature validation and
defines no ConfigurationError.  When the model is configured without
auxiliary features, the supplied `ext_feats` batch is never inspected: the
checked scorer produces the identical result — same rows, same error or
absence of error — for any two auxiliary inputs of the same batch size. -/
theorem scoreE_ignores_ext_when_disabled (m : QAModel) (training : Bool)
    (mask : Nat → Nat → Bool) (qs as : List Mat) (es es' : List Vec)
    (hne : m.no_ext_feats = true) (hlen : es.length = es'.length) :
    m.scoreE training mask qs as es = m.scoreE training mask qs as es' := by
  have hcheck : m.checkShapes qs as es = m.checkShapes qs as es' := by
    simp [QAModel.checkShapes, hne]
  have hscore : m.score training mask qs as es =
      m.score training mask qs as es' :=
    scoreAux_ext_any m training mask hne 0 qs as es es' hlen
  unfold QAModel.scoreE
  rw [hcheck, hscore]

/-- C8 (amended): a zero-length sequence does not raise an error for any
filter width `W ≥ 2`: the symmetric padding makes the padded length
`2(W-1) ≥ W`, so the convolution is feasible and produces `W - 1 ≥ 1`
positions to pool over.  Only `W = 1` leaves the convolution infeasible on
an empty sequence (a torch shape error, not an InvalidInputError — no such
exception exists in the code). -/
theorem zero_length_convolvable_iff (w : Nat) (hw : 1 ≤ w) :
    (convFeasible w 0 = true ↔ 2 ≤ w) ∧ convOutLen w (w - 1) 0 = w - 1 := by
  constructor
  · simp only [convFeasible, decide_eq_true_eq]
    omega
  · unfold convOutLen
    omega

/-! Concrete instances used by the counterexamples and witnesses. -/

/-- A minimal concrete model configured without auxiliary features
(`no_ext_feats = True`): filter width 1, one channel per branch, two
classes. -/
def mNoExt : QAModel :=
  { input_n_dim := 1
    filter_width := 1
    conv_channels := 1
    no_ext_feats := true
    ext_feats_size := 4
    n_classes := 2
    conv_q := ⟨[[[1]]], [0]⟩
    conv_a := ⟨[[[1]]], [0]⟩
    combined_feature_vector := ⟨[[1, 1], [1, 1]], [0, 0]⟩
    hidden := ⟨[[1, 0], [0, 1]], [0, 0]⟩ }

/-- A minimal concrete model with filter width 2 (and no auxiliary
features), used on zero-length sequences. -/
def mWidth2 : QAModel :=
  { input_n_dim := 1
    filter_width := 2
    conv_channels := 1
    no_ext_feats := true
    ext_feats_size := 4
    n_classes := 2
    conv_q := ⟨[[[1, 1]]], [0]⟩
    conv_a := ⟨[[[1, 1]]], [0]⟩
    combined_feature_vector := ⟨[[1, 1], [1, 1]], [0, 0]⟩
    hidden := ⟨[[1, 0], [0, 1]], [0, 0]⟩ }

/-- A single-channel width-5 convolution parameter set. -/
def cpFive : Conv1dParams := ⟨[[[1, 1, 1, 1, 1]]], [0]⟩

/-- A one-channel length-5 token matrix. -/
def inpFive : Mat := [[0, 0, 0, 0, 0]]

/-- A single-channel width-1 convolution parameter set. -/
def cpOne : Conv1dParams := ⟨[[[1]]], [0]⟩

/-- A one-channel length-1 token matrix. -/
def inpOne : Mat := [[0]]

/-- C7 (counterexample): `mNoExt` is configured without auxiliary features,
yet a call that does pass an auxiliary feature vector — exactly the
presence mismatch for which the claim promises a ConfigurationError before
any tensor operation — runs to completion: no error of any kind is
raised. -/
theorem no_error_on_ext_presence_mismatch :
    mNoExt.no_ext_feats = true ∧
    exceptOk (mNoExt.scoreE false (fun _ _ => false) [[[1]]] [[[1]]] [[1]])
      = true :=
  ⟨rfl, rfl⟩

/-- C8 (counterexample): with filter width 2, a zero-length question and a
zero-length answer are accepted — the padding makes the convolution
feasible and pooling proceeds over the single padded position — and `score`
returns a result row; no InvalidInputError (nor any other error) is
raised. -/
theorem no_error_on_zero_length_sequence :
    seqLen [([] : Vec)] = 0 ∧
    exceptOk (mWidth2.scoreE false (fun _ _ => false) [[[]]] [[[]]] [[]])
      = true ∧
    (mWidth2.score false (fun _ _ => false) [[[]]] [[[]]] [[]]).length = 1 :=
  ⟨rfl, rfl, rfl⟩

/-! Witnesses for the theorems with hypotheses. -/

/-- Witness for C2: the concrete model `mNoExt` satisfies the classifier
hypothesis and its score rows exponentiate to probability vectors. -/
theorem score_rows_exp_sum_one_witness :
    1 ≤ min mNoExt.hidden.weight.length mNoExt.hidden.bias.length ∧
    ∀ row ∈ mNoExt.score false (fun _ _ => false) [[[1]]] [[[1]]] [[1]],
      (row.map Real.exp).sum = 1 :=
  ⟨by decide, score_rows_exp_sum_one mNoExt false (fun _ _ => false)
    [[[1]]] [[[1]]] [[1]] (by decide)⟩

/-- Witness for C3 at the spec's own example `L = 5`, `W = 5` (where
`seqLen inpFive + 5 - 1` is the expected raw feature-map length 9). -/
theorem conv_raw_output_length_witness :
    (1 : Nat) ≤ 5 ∧ 1 ≤ seqLen inpFive ∧
    ((∀ r ∈ inpFive, (padSeq (5 - 1) r).length = r.length + 2 * (5 - 1)) ∧
     (conv1d 5 (5 - 1) cpFive inpFive).length =
       min cpFive.weight.length cpFive.bias.length ∧
     ∀ row ∈ conv1d 5 (5 - 1) cpFive inpFive,
       row.length = seqLen inpFive + 5 - 1) :=
  ⟨by decide, by decide,
    conv_raw_output_length 5 cpFive inpFive (by decide) (by decide)⟩

/-- Witness for C4 on a two-element batch whose sequence lengths differ
(5 and 2): both summary vectors have the channel count 1. -/
theorem branch_output_shape_witness :
    cpFive.weight.length = 1 ∧ cpFive.bias.length = 1 ∧
    ((branchBatch 5 cpFive [inpFive, [[0, 0]]]).length =
       [inpFive, [[0, 0]]].length ∧
     ∀ v ∈ branchBatch 5 cpFive [inpFive, [[0, 0]]], v.length = 1) :=
  ⟨rfl, rfl, branch_output_shape 5 1 cpFive [inpFive, [[0, 0]]] rfl rfl⟩

/-- Witness for C10 at a concrete width-1 branch and length-1 input. -/
theorem branch_summary_strictly_bounded_witness :
    (1 : Nat) ≤ 1 ∧ 1 ≤ seqLen inpOne ∧
    ∀ y ∈ branchVec 1 cpOne inpOne, -1 < y ∧ y < 1 :=
  ⟨by decide, by decide,
    branch_summary_strictly_bounded 1 cpOne inpOne (by decide) (by decide)⟩

/-- Witness for the amended C7: swapping the provided auxiliary batch for an
entirely different same-size batch changes nothing about the checked
scorer's outcome on `mNoExt`. -/
theorem scoreE_ignores_ext_when_disabled_witness :
    mNoExt.no_ext_feats = true ∧
    ([[(1 : ℝ)]] : List Vec).length = ([[]] : List Vec).length ∧
    mNoExt.scoreE false (fun _ _ => false) [[[1]]] [[[1]]] [[1]] =
      mNoExt.scoreE false (fun _ _ => false) [[[1]]] [[[1]]] [[]] :=
  ⟨rfl, rfl, scoreE_ignores_ext_when_disabled mNoExt false (fun _ _ => false)
    [[[1]]] [[[1]]] [[1]] [[]] rfl rfl⟩

/-- Witness for the amended C8 at `W = 5`: a zero-length sequence is
convolvable and yields raw feature maps of length 4. -/
theorem zero_length_convolvable_iff_witness :
    (1 : Nat) ≤ 5 ∧
    ((convFeasible 5 0 = true ↔ 2 ≤ 5) ∧ convOutLen 5 (5 - 1) 0 = 5 - 1) :=
  ⟨by decide, zero_length_convolvable_iff 5 (by decide)⟩

/-- Witness for C9: on `mNoExt`, two entirely different auxiliary feature
vectors produce the same forward output. -/
theorem forward_ignores_ext_when_disabled_witness :
    mNoExt.no_ext_feats = true ∧
    mNoExt.forwardItem false (fun _ => false) [[1]] [[1]] [1] =
      mNoExt.forwardItem false (fun _ => false) [[1]] [[1]] [2, 3] :=
  ⟨rfl, forward_ignores_ext_when_disabled mNoExt false (fun _ => false)
    [[1]] [[1]] [1] [2, 3] rfl⟩

end SMCNN
